import Mathlib

/-!
Verification of the teaching examples in the `rust-bible` repository.

The definitions below are shallow embeddings of the Rust source:

* `generics_in_functions` and its two sugar wrappers embed the generic
  `largest` function of `src/_3_structs_enums_traits/_5_generics.rs`
  (slice indexing that can panic is embedded as an `Option` result);
* `Fibonacci` and its iterator method embed the infinite Fibonacci
  iterator of `rust-wiki/src/_5_functional_features/_2_iterators.rs`,
  with `u32` addition taken modulo `2 ^ 32`;
* `TraitsV1` and `TraitsV2` embed the two revisions of the `Show` trait
  example (`src/.../_4_traits.rs` and `rust-wiki/.../_4_traits.rs`);
* `MethodsV1` and `MethodsV2` embed the two revisions of the `Rectangle`
  area methods, with `u32` multiplication taken modulo `2 ^ 32`;
* `Result` embeds the custom generic enum of `_5_generics.rs` with its
  methods `from_ok` and `from_ok_u32` (`u32` embedded as `Nat`).
-/

/-- One step of the accumulator update in the loop body of the Rust
function `generics_in_functions`: `if item > largest { largest = item }`. -/
def updateLargest {T : Type} [LinearOrder T] (largest item : T) : T :=
  if largest < item then item else largest

/-- Embedding of `fn generics_in_functions<T: PartialOrd>(list: &[T]) -> &T`.
The initial read `&list[0]` panics on an empty slice, embedded here as the
`none` result; the loop `for item in list` is a left fold of the update. -/
def generics_in_functions {T : Type} [LinearOrder T] (list : List T) : Option T :=
  match list[0]? with
  | none => none
  | some first => some (list.foldl updateLargest first)

/-- Embedding of `generics_in_functions_implsugar`, which delegates to
`generics_in_functions`. -/
def generics_in_functions_implsugar {T : Type} [LinearOrder T] (list : List T) : Option T :=
  generics_in_functions list

/-- Embedding of `generics_in_functions_wheresugar`, which delegates to
`generics_in_functions`. -/
def generics_in_functions_wheresugar {T : Type} [LinearOrder T] (list : List T) : Option T :=
  generics_in_functions list

/-- Embedding of `struct Fibonacci { curr: u32, next: u32 }`.
The `u32` fields are embedded as `Nat`; every value computed by the
iterator is reduced modulo `2 ^ 32`. -/
structure Fibonacci where
  curr : Nat
  next : Nat

/-- Embedding of `fn next(&mut self) -> Option<Self::Item>` from
`impl Iterator for Fibonacci` (named `nextMut` because the field accessor
already takes the source name `next`): it returns `Some(current)` and the
updated state, with the `u32` addition `current + self.next` taken modulo
`2 ^ 32`. -/
def Fibonacci.nextMut (s : Fibonacci) : Option Nat × Fibonacci :=
  let current : Nat := s.curr
  (some current, { curr := s.next, next := (current + s.next) % 2 ^ 32 })

/-- The iterator state after `k` calls to `nextMut`. -/
def Fibonacci.iterState (s : Fibonacci) : Nat → Fibonacci
  | 0 => s
  | k + 1 => (Fibonacci.iterState s k).nextMut.2

/-- The value returned by the `k`-th call (0-indexed) to `nextMut`:
`nextMut` applied to the state reached after `k` earlier calls. -/
def Fibonacci.nthCall (s : Fibonacci) (k : Nat) : Option Nat :=
  ((s.iterState k).nextMut).1

/-- The mathematical Fibonacci sequence seeded with `a`, `b`, with each
recurrence step reduced modulo `2 ^ 32` (wrapping `u32` addition). -/
def fibSpec (a b : Nat) : Nat → Nat
  | 0 => a
  | 1 => b
  | k + 2 => (fibSpec a b k + fibSpec a b (k + 1)) % 2 ^ 32

/-- Relational embedding of one call to `Fibonacci::next`: the body is a
single straight-line sequence of assignments, so the relation has exactly
one rule, mirroring the code. -/
inductive FibStep : Fibonacci → Option Nat × Fibonacci → Prop where
  | step (s : Fibonacci) :
      FibStep s (some s.curr, { curr := s.next, next := (s.curr + s.next) % 2 ^ 32 })

namespace TraitsV1

/-- Embedding of `struct User` from the earlier revision
`src/_3_structs_enums_traits/_4_traits.rs` (`u64` embedded as `Nat`). -/
structure User where
  active : Bool
  sign_in_count : Nat
  username : String

/-- Embedding of `fn show(&self) -> String` from `impl Show for User`
in the earlier revision: returns `self.username.to_string()`. -/
def User.show (u : User) : String :=
  u.username

/-- Embedding of the default method `fn show_twice(&self) -> String` of
trait `Show` in the earlier revision: `self.show()` with `"world"` pushed
onto the end. -/
def User.show_twice (u : User) : String :=
  u.show ++ "world"

end TraitsV1

namespace TraitsV2

/-- Embedding of `struct User` from the later revision
`rust-wiki/src/_3_datatypes_and_traits/_4_traits.rs`. -/
structure User where
  active : Bool
  sign_in_count : Nat
  username : String

/-- Embedding of `fn show(&self) -> String` from `impl Show for User`
in the later revision: returns `self.username.to_string()`. -/
def User.show (u : User) : String :=
  u.username

/-- Embedding of the default method `fn show_twice(&self) -> String` of
trait `Show` in the later revision: `self.show()` with `"world"` pushed
onto the end. -/
def User.show_twice (u : User) : String :=
  u.show ++ "world"

/-- Embedding of the associated function
`fn alt_show(s : String) -> Vec<char>`: pushes each character of `s`
onto an initially empty vector. -/
def User.alt_show (s : String) : List Char :=
  s.data.foldl (fun v c => v ++ [c]) []

/-- A single `print!` event of `using_traits_example`: either a plain
string (`print!("\x7bs\x7d")`) or the `Debug` rendering of a `Vec<char>`
(`print!("\x7bv:?\x7d")`), kept abstract since that formatting lives in
the Rust standard library, not in this repository. -/
inductive Output where
  | str : String → Output
  | vecCharDebug : List Char → Output

/-- Embedding of `pub fn using_traits_example()` from the later revision
as the list of its `print!` events: it builds the `User` with username
`"hello"`, prints `show_twice`, then prints the `Debug` form of
`alt_show` applied to `show`. -/
def using_traits_example : List Output :=
  let user1 : User := { active := true, sign_in_count := 0, username := "hello" }
  let s : String := user1.show_twice
  let v : List Char := User.alt_show user1.show
  [Output.str s, Output.vecCharDebug v]

end TraitsV2

/-- Relational embedding of the program entry point: `fn main` calls
`using_traits_example`, whose straight-line body produces exactly one
possible sequence of print events. -/
inductive MainRun : List TraitsV2.Output → Prop where
  | run : MainRun TraitsV2.using_traits_example

namespace MethodsV1

/-- Embedding of `struct Rectangle` from the earlier revision
`src/_3_structs_and_enums/_3_methods.rs` (`u32` fields as `Nat`). -/
structure Rectangle where
  width : Nat
  height : Nat

/-- Embedding of `fn area(&self) -> u32` from the earlier revision:
`self.width * self.height` with the `u32` product taken modulo `2 ^ 32`. -/
def Rectangle.area (self : Rectangle) : Nat :=
  (self.width * self.height) % 2 ^ 32

end MethodsV1

namespace MethodsV2

/-- Embedding of `struct Rectangle` from the later revision
`src/_3_structs_enums_traits/_3_methods.rs` (`u32` fields as `Nat`). -/
structure Rectangle where
  width : Nat
  height : Nat

/-- Embedding of `fn area_withselfval(self) -> u32`: takes the receiver
by value and returns `self.width * self.height` modulo `2 ^ 32`. -/
def Rectangle.area_withselfval (self : Rectangle) : Nat :=
  (self.width * self.height) % 2 ^ 32

/-- Embedding of `fn area_withselfref(&self) -> u32`: borrows the
receiver and returns `self.width * self.height` modulo `2 ^ 32`. -/
def Rectangle.area_withselfref (self : Rectangle) : Nat :=
  (self.width * self.height) % 2 ^ 32

end MethodsV2

/-- Embedding of the custom `enum Result<T, E> { Ok(T), Err(E) }` from
`src/_3_structs_enums_traits/_5_generics.rs`. -/
inductive Result (T E : Type) where
  | Ok : T → Result T E
  | Err : E → Result T E

/-- Embedding of the generic method `fn from_ok(self, default : T) -> T`:
returns the `Ok` payload, or the default on `Err`. -/
def Result.from_ok {T E : Type} : Result T E → T → T
  | Result.Ok res, _ => res
  | Result.Err _, d => d

/-- Embedding of the specialised method `fn from_ok_u32(self) -> u32` on
`Result<u32, E>` (`u32` embedded as `Nat`): returns the `Ok` payload, or
`0` on `Err`. -/
def Result.from_ok_u32 {E : Type} : Result Nat E → Nat
  | Result.Ok res => res
  | Result.Err _ => 0

theorem le_updateLargest_left {T : Type} [LinearOrder T] (a b : T) : a ≤ updateLargest a b := by
  unfold updateLargest
  split
  · exact le_of_lt (by assumption)
  · exact le_refl a

theorem le_updateLargest_right {T : Type} [LinearOrder T] (a b : T) : b ≤ updateLargest a b := by
  unfold updateLargest
  split
  · exact le_refl b
  · exact le_of_not_lt (by assumption)

theorem le_foldl_updateLargest {T : Type} [LinearOrder T] :
    ∀ (l : List T) (a : T), a ≤ List.foldl updateLargest a l
  | [], a => le_refl a
  | b :: l, a =>
      le_trans (le_updateLargest_left a b) (le_foldl_updateLargest l (updateLargest a b))

theorem mem_le_foldl_updateLargest {T : Type} [LinearOrder T] (l : List T) :
    ∀ (a x : T), x ∈ l → x ≤ List.foldl updateLargest a l := by
  induction l with
  | nil =>
      intro a x hx
      exact absurd hx (List.not_mem_nil x)
  | cons b l ih =>
      intro a x hx
      rw [List.foldl_cons]
      rcases List.mem_cons.mp hx with h | h
      · subst h
        exact le_trans (le_updateLargest_right a x) (le_foldl_updateLargest l _)
      · exact ih _ x h

theorem foldl_updateLargest_mem {T : Type} [LinearOrder T] (l : List T) :
    ∀ (a : T), List.foldl updateLargest a l = a ∨ List.foldl updateLargest a l ∈ l := by
  induction l with
  | nil =>
      intro a
      exact Or.inl rfl
  | cons b l ih =>
      intro a
      rw [List.foldl_cons]
      rcases ih (updateLargest a b) with h | h
      · by_cases hab : a < b
        · right
          rw [h]
          simp only [updateLargest, if_pos hab]
          exact List.mem_cons_self b l
        · left
          rw [h]
          simp only [updateLargest, if_neg hab]
      · right
        exact List.mem_cons_of_mem b h

/-- Claim C1: on every non-empty slice over a totally ordered element type,
`generics_in_functions` returns an element of the slice that is greater than
or equal to every element, and the two sugar wrappers return the same value. -/
theorem generics_in_functions_max {T : Type} [LinearOrder T] (list : List T)
    (h : list ≠ []) :
    ∃ r, generics_in_functions list = some r ∧ r ∈ list ∧ (∀ x ∈ list, x ≤ r) ∧
      generics_in_functions_implsugar list = some r ∧
      generics_in_functions_wheresugar list = some r := by
  cases list with
  | nil => exact absurd rfl h
  | cons first rest =>
      refine ⟨List.foldl updateLargest first (first :: rest), ?_, ?_, ?_, ?_, ?_⟩
      · simp [generics_in_functions]
      · rcases foldl_updateLargest_mem (first :: rest) first with hm | hm
        · rw [hm]
          exact List.mem_cons_self first rest
        · exact hm
      · intro x hx
        exact mem_le_foldl_updateLargest (first :: rest) first x hx
      · simp [generics_in_functions_implsugar, generics_in_functions]
      · simp [generics_in_functions_wheresugar, generics_in_functions]

/-- Witness for Claim C1 at the concrete slice `[3, 1, 2]`. -/
theorem generics_in_functions_max_wit :
    ∃ r, generics_in_functions ([3, 1, 2] : List Nat) = some r ∧
      r ∈ ([3, 1, 2] : List Nat) ∧ (∀ x ∈ ([3, 1, 2] : List Nat), x ≤ r) ∧
      generics_in_functions_implsugar ([3, 1, 2] : List Nat) = some r ∧
      generics_in_functions_wheresugar ([3, 1, 2] : List Nat) = some r :=
  generics_in_functions_max ([3, 1, 2] : List Nat) (by decide)

/-- Claim C6: `generics_in_functions` fails (the panicking index `list[0]`)
exactly on the empty slice: on the empty slice it returns no value, and on
every non-empty slice it returns a value. -/
theorem generics_in_functions_empty_behavior {T : Type} [LinearOrder T] (list : List T) :
    (list = [] → generics_in_functions list = none) ∧
    (list ≠ [] → (generics_in_functions list).isSome = true) := by
  constructor
  · intro h
    subst h
    rfl
  · intro h
    cases list with
    | nil => exact absurd rfl h
    | cons first rest => simp [generics_in_functions]

/-- Witness for Claim C6 at the concrete slices `[]` and `[5, 2]`. -/
theorem generics_in_functions_empty_behavior_wit :
    generics_in_functions ([] : List Nat) = none ∧
    (generics_in_functions ([5, 2] : List Nat)).isSome = true :=
  ⟨(generics_in_functions_empty_behavior ([] : List Nat)).1 rfl,
   (generics_in_functions_empty_behavior ([5, 2] : List Nat)).2 (by decide)⟩

theorem fibSpec_add_two (a b k : Nat) :
    fibSpec a b (k + 2) = (fibSpec a b k + fibSpec a b (k + 1)) % 2 ^ 32 := by
  simp [fibSpec]

theorem iterState_spec (a b : Nat) :
    ∀ k, Fibonacci.iterState ⟨a, b⟩ k = ⟨fibSpec a b k, fibSpec a b (k + 1)⟩ := by
  intro k
  induction k with
  | zero => rfl
  | succ k ih =>
      show (Fibonacci.iterState ⟨a, b⟩ k).nextMut.2 = ⟨fibSpec a b (k + 1), fibSpec a b (k + 2)⟩
      rw [ih, fibSpec_add_two]
      rfl

/-- Claim C2: starting from any state `(curr = a, next = b)`, the `k`-th call
to the Fibonacci iterator returns `some (F_k)` where `F_0 = a`, `F_1 = b`,
and `F_k = (F_\x7bk-1\x7d + F_\x7bk-2\x7d) % 2 ^ 32` (wrapping `u32` addition). -/
theorem fibonacci_nthCall_spec (a b k : Nat) :
    Fibonacci.nthCall ⟨a, b⟩ k = some (fibSpec a b k) := by
  rw [Fibonacci.nthCall, iterState_spec]
  rfl

/-- Claim C3: `Fibonacci::next` never returns `None`: one call returns
`Some` of the current value, and the value of the `k`-th call is `Some`
for every state and every `k`. -/
theorem fibonacci_never_none (s : Fibonacci) (k : Nat) :
    (s.nextMut).1 = some s.curr ∧ (Fibonacci.nthCall s k).isSome = true :=
  ⟨rfl, rfl⟩

/-- Claim C4: for every `User` `u`, `u.show()` is `u.username`,
`u.show_twice()` is `u.username` with `"world"` appended, and the entry
point `using_traits_example` (username `"hello"`) prints `"helloworld"`
as its first output. -/
theorem show_and_show_twice_spec (u : TraitsV2.User) :
    u.show = u.username ∧
    u.show_twice = u.username ++ "world" ∧
    TraitsV2.using_traits_example.head? = some (TraitsV2.Output.str "helloworld") :=
  ⟨rfl, rfl, rfl⟩

/-- Claim C5: the two revisions of the trait example agree: on `User`
values with equal fields, `show` and `show_twice` of the earlier revision
return exactly the strings of the later revision. -/
theorem traits_revisions_equiv (a : Bool) (c : Nat) (n : String) :
    TraitsV1.User.show ⟨a, c, n⟩ = TraitsV2.User.show ⟨a, c, n⟩ ∧
    TraitsV1.User.show_twice ⟨a, c, n⟩ = TraitsV2.User.show_twice ⟨a, c, n⟩ :=
  ⟨rfl, rfl⟩

/-- Claim C8: the embedded operations are deterministic: the step relation
of `Fibonacci::next` relates each state to exactly one result, the entry
point produces exactly one output sequence, and `generics_in_functions`
yields equal results on equal inputs. -/
theorem all_operations_deterministic :
    (∀ (s : Fibonacci) (r1 r2 : Option Nat × Fibonacci),
        FibStep s r1 → FibStep s r2 → r1 = r2) ∧
    (∀ (o1 o2 : List TraitsV2.Output), MainRun o1 → MainRun o2 → o1 = o2) ∧
    (∀ (T : Type) [LinearOrder T] (l1 l2 : List T),
        l1 = l2 → generics_in_functions l1 = generics_in_functions l2) := by
  refine ⟨?_, ?_, ?_⟩
  · intro s r1 r2 h1 h2
    cases h1
    cases h2
    rfl
  · intro o1 o2 h1 h2
    cases h1
    cases h2
    rfl
  · intro T _ l1 l2 h
    rw [h]

/-- Witness for Claim C8 at the state `(curr = 0, next = 1)`, the entry
point, and the concrete slice `[2, 1]`. -/
theorem all_operations_deterministic_wit :
    ((some 0, ⟨1, (0 + 1) % 2 ^ 32⟩) : Option Nat × Fibonacci) =
      (some 0, ⟨1, (0 + 1) % 2 ^ 32⟩) ∧
    TraitsV2.using_traits_example = TraitsV2.using_traits_example ∧
    generics_in_functions ([2, 1] : List Nat) = generics_in_functions ([2, 1] : List Nat) :=
  ⟨all_operations_deterministic.1 ⟨0, 1⟩ _ _ (FibStep.step ⟨0, 1⟩) (FibStep.step ⟨0, 1⟩),
   all_operations_deterministic.2.1 _ _ MainRun.run MainRun.run,
   all_operations_deterministic.2.2 Nat ([2, 1] : List Nat) ([2, 1] : List Nat) rfl⟩

/-- Claim C9: the duplicated `Rectangle` area computations agree: both
methods of the later revision and the earlier revision's `area` all
return `width * height` modulo `2 ^ 32`, hence are equal on every input. -/
theorem rectangle_areas_agree (w h : Nat) :
    MethodsV2.Rectangle.area_withselfval ⟨w, h⟩ = (w * h) % 2 ^ 32 ∧
    MethodsV2.Rectangle.area_withselfref ⟨w, h⟩ = (w * h) % 2 ^ 32 ∧
    MethodsV1.Rectangle.area ⟨w, h⟩ = (w * h) % 2 ^ 32 ∧
    MethodsV2.Rectangle.area_withselfval ⟨w, h⟩ = MethodsV2.Rectangle.area_withselfref ⟨w, h⟩ ∧
    MethodsV2.Rectangle.area_withselfref ⟨w, h⟩ = MethodsV1.Rectangle.area ⟨w, h⟩ :=
  ⟨rfl, rfl, rfl, rfl, rfl⟩

/-- Claim C10: `from_ok` returns the `Ok` payload and otherwise the given
default, and `from_ok_u32` equals `from_ok` with default `0` on every
`Result<u32, E>` value. -/
theorem result_from_ok_spec {T E : Type} (d : T) :
    (∀ x : T, (Result.Ok x : Result T E).from_ok d = x) ∧
    (∀ e : E, (Result.Err e : Result T E).from_ok d = d) ∧
    (∀ r : Result Nat E, r.from_ok_u32 = r.from_ok 0) := by
  refine ⟨fun x => rfl, fun e => rfl, fun r => ?_⟩
  cases r with
  | Ok res => rfl
  | Err e => rfl
